import Mathlib

/-!
# Project-HA: the WebcamModel component

A shallow embedding of `src/app/components/WebcamModel.js`.

* JavaScript numbers are idealised as rationals: comparisons between finite
  doubles are exact, arithmetic is taken without rounding.
* A handler is a closure created by one render of the component.  The values
  of `model` and `webcam` it sees are the ones of that render, so every
  handler takes the render's state as its first argument.
* A handler or callback is embedded as the list of effects it performs, in
  program order; an `await` splits a callback into the part before it and
  the part that resumes once the awaited call has returned.
* Timers and pending `predict` calls are kept in a `Session`, stepped by
  events (a tick fires, a pending predict returns, the deadline fires).
-/

namespace WebcamModel

/-! ## Data -/

/-- One entry of the sequence returned by `model.predict`. -/
structure Prediction where
  className : String
  probability : ℚ
deriving DecidableEq

/-- The classifier handle returned by `tmImage.load`. -/
structure TMModel where
  modelURL : String
  metadataURL : String
deriving DecidableEq

/-- The object built by `new tmImage.Webcam(width, height, flip)`. -/
structure TMWebcam where
  width : Nat
  height : Nat
  flip : Bool
deriving DecidableEq

/-- The value handed to `setAnalysisTime` on lines 99 and 134, the string
`((endTime - startTime) / 1000).toFixed(2)`, kept as the two readings of
`performance.now()` it is computed from: the subtraction and the division are
done in doubles, whose rounding is not part of this development. -/
structure Elapsed where
  startTime : ℚ
  endTime : ℚ
deriving DecidableEq

/-- The React state of the component, one field per `useState` (lines 11-17). -/
structure State where
  model : Option TMModel
  webcam : Option TMWebcam
  predictions : List Prediction
  analysisTime : Option Elapsed
  finalResult : String
  isAnalyzing : Bool
  mode : String
deriving DecidableEq

/-- The initial values given to `useState` (lines 11-17). -/
def State.initial : State :=
  { model := none, webcam := none, predictions := [], analysisTime := none,
    finalResult := "", isAnalyzing := false, mode := "" }

/-- The two base addresses joined in `loadModel` (lines 7, 21, 22). -/
def loadedModel : TMModel :=
  { modelURL := "https://teachablemachine.withgoogle.com/models/qzOsScSKL/model.json",
    metadataURL := "https://teachablemachine.withgoogle.com/models/qzOsScSKL/metadata.json" }

/-- What the component does to the outside world and to its own state;
`startTime t` is `const startTime = performance.now()` reading `t`. -/
inductive Effect where
  | setMode (m : String)
  | setWebcam (w : TMWebcam)
  | setPredictions (ps : List Prediction)
  | setAnalysisTime (startTime endTime : ℚ)
  | setFinalResult (r : String)
  | setIsAnalyzing (b : Bool)
  | mountCanvas
  | drawImage (w h : Nat)
  | consoleError (msg : String)
  | alert (msg : String)
  | readAsDataURL
  | startTime (t : ℚ)
  | setInterval (period : Nat)
  | setTimeout (delay : Nat)
  | clearInterval
  | predict
  | uncaught (msg : String)
deriving DecidableEq

/-! ## Number formatting -/

/-- Decimal digits of `n` followed by a point and its last two digits: the
string that `toFixed(2)` builds from the integer `n` it has chosen. -/
def fixedDigits (n : Nat) : String :=
  toString (n / 100) ++ "." ++ toString (n % 100 / 10) ++ toString (n % 10)

/-- The method `Number.prototype.toFixed(2)` on a finite number below `10^21` in size:
the sign, then the integer `n` with `n / 100` nearest to the magnitude (the
larger `n` when two are equally near), written with two decimals. -/
def toFixed2 (x : ℚ) : String :=
  (if x < 0 then "-" else "") ++ fixedDigits (Int.toNat ⌊|x| * 100 + 1 / 2⌋)

/-! ## formatResult (lines 139-144) -/

/-- The callback handed to `reduce` on line 141. -/
def pick (prev current : Prediction) : Prediction :=
  if prev.probability > current.probability then prev else current

/-- The method `Array.prototype.reduce` without an initial value: the first element is
the accumulator, and the empty array raises a `TypeError`. -/
def reduce (f : Prediction → Prediction → Prediction) :
    List Prediction → Except String Prediction
  | [] => .error "TypeError: Reduce of empty array with no initial value"
  | p :: rest => .ok (rest.foldl f p)

/-- The template string of line 143. -/
def resultText (topPrediction : Prediction) : String :=
  topPrediction.className ++ ": " ++ toFixed2 topPrediction.probability

/-- The function `formatResult` (lines 139-144). -/
def formatResult (predictions : List Prediction) : Except String String :=
  match reduce pick predictions with
  | .error e => .error e
  | .ok topPrediction => .ok (resultText topPrediction)

/-! ## Live jitter (lines 82-88 and 116-122) -/

/-- The `map` of lines 82-88 and 116-122: entry number `i` of the sequence
gets the `i`-th value drawn from `Math.random` during this call. -/
def perturbFrom (jitterMax : ℚ) (random : Nat → ℚ) : Nat → List Prediction → List Prediction
  | _, [] => []
  | i, p :: rest =>
    { p with probability := min (p.probability + random i * jitterMax) 1 }
      :: perturbFrom jitterMax random (i + 1) rest

/-- The literal `0.1` of line 119. -/
def cameraJitter : ℚ := 1 / 10

/-- The literal `0.2` of line 85. -/
def uploadJitter : ℚ := 2 / 10

/-! ## Handlers and callbacks -/

/-- How `newWebcam.setup()` and `newWebcam.play()` end (lines 36-37). -/
inductive Acquisition where
  | setupThrows
  | playThrows
  | ready
deriving DecidableEq

/-- The function `initializeWebcam` (lines 31-48); `refMounted` says whether
`webcamRef.current` is set when line 40 runs. -/
def initializeWebcam (acq : Acquisition) (refMounted : Bool) : List Effect :=
  match acq with
  | .ready =>
    [.setWebcam { width := 300, height := 300, flip := true }]
      ++ (if refMounted then [.mountCanvas] else [])
  | _ =>
    [.consoleError "Webcam initialization failed",
     .alert "Could not access your webcam. Please check permissions."]

/-- The function `runAnalysis` up to the scheduling of its two timers (lines 108-137, the
callbacks apart); `seen` is the state of the render that built the closure. -/
def runAnalysis (seen : State) : List Effect :=
  if seen.model.isNone || seen.webcam.isNone then []
  else [.setIsAnalyzing true, .setInterval 300, .setTimeout 3000]

/-- The handler `handleCameraStart` (lines 50-55). -/
def handleCameraStart (seen : State) (acq : Acquisition) (refMounted : Bool) : List Effect :=
  [.setMode "camera"] ++ initializeWebcam acq refMounted
    ++ [.setIsAnalyzing true] ++ runAnalysis seen

/-- The handler `handleFileUpload` up to `reader.readAsDataURL` (lines 57-61, 104);
`file` says whether `event.target.files[0]` is defined. -/
def handleFileUpload (seen : State) (file : Bool) : List Effect :=
  [.setMode "upload"]
    ++ (if file && seen.model.isSome then [.readAsDataURL] else [])

/-- The `image.onload` callback of `handleFileUpload` (lines 67-101, the
timer callbacks apart); `t` is the reading of `performance.now()` on line 76. -/
def imageOnload (canvasMounted : Bool) (t : ℚ) : List Effect :=
  (if canvasMounted then [.drawImage 300 300] else [])
    ++ [.startTime t, .setIsAnalyzing true, .setInterval 300, .setTimeout 3000]

/-- The interval callback of `runAnalysis` up to its `await` (line 115). -/
def cameraTick : List Effect := [.predict]

/-- The interval callback of `runAnalysis` after its `await` (lines 116-122). -/
def cameraTickResume (predictions : List Prediction) (random : Nat → ℚ) : List Effect :=
  [.setPredictions (perturbFrom cameraJitter random 0 predictions)]

/-- The interval callback of `handleFileUpload` up to its `await` (line 81). -/
def uploadTick : List Effect := [.predict]

/-- The interval callback of `handleFileUpload` after its `await` (lines 82-88). -/
def uploadTickResume (predictions : List Prediction) (random : Nat → ℚ) : List Effect :=
  [.setPredictions (perturbFrom uploadJitter random 0 predictions)]

/-- The timeout callback of `runAnalysis` up to its `await` (lines 127-129);
`t` is the reading of `performance.now()` on line 128. -/
def cameraDeadline (t : ℚ) : List Effect := [.clearInterval, .startTime t, .predict]

/-- The timeout callback of `runAnalysis` after its `await` (lines 130-135);
`startTime` is the value bound on line 128, `endTime` the reading of line 130. -/
def cameraDeadlineResume (startTime : ℚ) (predictions : List Prediction) (endTime : ℚ) :
    List Effect :=
  [.setPredictions predictions]
    ++ (match formatResult predictions with
        | .error e => [.uncaught e]
        | .ok r =>
          [.setFinalResult r, .setAnalysisTime startTime endTime, .setIsAnalyzing false])

/-- The timeout callback of `handleFileUpload` up to its `await` (lines 93-94). -/
def uploadDeadline : List Effect := [.clearInterval, .predict]

/-- The timeout callback of `handleFileUpload` after its `await` (lines
95-100); `startTime` is the value bound on line 76, `endTime` the reading of
line 98. -/
def uploadDeadlineResume (startTime : ℚ) (predictions : List Prediction) (endTime : ℚ) :
    List Effect :=
  [.setPredictions predictions]
    ++ (match formatResult predictions with
        | .error e => [.uncaught e]
        | .ok r =>
          [.setFinalResult r, .setAnalysisTime startTime endTime, .setIsAnalyzing false])

/-! ## State, timers and pending calls -/

/-- The state setters. -/
def State.apply (s : State) : Effect → State
  | .setMode m => { s with mode := m }
  | .setWebcam w => { s with webcam := some w }
  | .setPredictions ps => { s with predictions := ps }
  | .setAnalysisTime startTime endTime =>
    { s with analysisTime := some { startTime := startTime, endTime := endTime } }
  | .setFinalResult r => { s with finalResult := r }
  | .setIsAnalyzing b => { s with isAnalyzing := b }
  | _ => s

/-- Which handler started the timers. -/
inductive Source where
  | camera
  | upload
deriving DecidableEq

/-- The component together with its timers and its pending `predict` calls. -/
structure Session where
  ui : State
  source : Source
  clock : ℚ
  startTime : Option ℚ
  intervalActive : Bool
  deadlineAt : Option ℚ
  ticksInFlight : Nat
  finalInFlight : Bool
  alerts : Nat
  predictCalls : Nat
  uncaught : Nat
deriving DecidableEq

/-- The component at time `t` with nothing scheduled. -/
def Session.idle (ui : State) (source : Source) (t : ℚ) : Session :=
  { ui := ui, source := source, clock := t, startTime := none, intervalActive := false,
    deadlineAt := none, ticksInFlight := 0, finalInFlight := false, alerts := 0,
    predictCalls := 0, uncaught := 0 }

/-- One effect, performed at the session's current time. -/
def Session.apply (s : Session) (e : Effect) : Session :=
  let s := { s with ui := s.ui.apply e }
  match e with
  | .startTime t => { s with startTime := some t }
  | .setInterval _ => { s with intervalActive := true }
  | .setTimeout delay => { s with deadlineAt := some (s.clock + delay) }
  | .clearInterval => { s with intervalActive := false }
  | .alert _ => { s with alerts := s.alerts + 1 }
  | .predict => { s with predictCalls := s.predictCalls + 1 }
  | .uncaught _ => { s with uncaught := s.uncaught + 1 }
  | _ => s

/-- A list of effects, in program order. -/
def Session.perform (s : Session) (es : List Effect) : Session :=
  es.foldl Session.apply s

/-- What can happen to a session once its handler has returned. -/
inductive Event where
  | tick (t : ℚ)
  | tickReturns (t : ℚ) (predictions : List Prediction) (random : Nat → ℚ)
  | deadline (t : ℚ)
  | finalReturns (t : ℚ) (predictions : List Prediction)

/-- One event: `none` when it cannot happen in `s` (the interval is not
running, the deadline is not due, no such call is pending, or time would run
backwards). -/
def step (s : Session) : Event → Option Session
  | .tick t =>
    if s.intervalActive = true ∧ s.clock ≤ t then
      let s := { s with clock := t }
      let s := s.perform (match s.source with
        | .camera => cameraTick
        | .upload => uploadTick)
      some { s with ticksInFlight := s.ticksInFlight + 1 }
    else none
  | .tickReturns t predictions random =>
    if 0 < s.ticksInFlight ∧ s.clock ≤ t then
      let s := { s with clock := t, ticksInFlight := s.ticksInFlight - 1 }
      some (s.perform (match s.source with
        | .camera => cameraTickResume predictions random
        | .upload => uploadTickResume predictions random))
    else none
  | .deadline t =>
    match s.deadlineAt with
    | none => none
    | some due =>
      if due ≤ t ∧ s.clock ≤ t then
        let s := { s with clock := t, deadlineAt := none }
        let s := s.perform (match s.source with
          | .camera => cameraDeadline t
          | .upload => uploadDeadline)
        some { s with finalInFlight := true }
      else none
  | .finalReturns t predictions =>
    match s.startTime with
    | none => none
    | some startTime =>
      if s.finalInFlight = true ∧ s.clock ≤ t then
        let s := { s with clock := t, finalInFlight := false }
        some (s.perform (match s.source with
          | .camera => cameraDeadlineResume startTime predictions t
          | .upload => uploadDeadlineResume startTime predictions t))
      else none

/-- A sequence of events, in the order in which they happen. -/
def run (s : Session) : List Event → Option Session
  | [] => some s
  | e :: es => (step s e).bind fun s => run s es

/-- A click on "Use Camera" at time `t` in a component whose state is `ui`. -/
def cameraSession (ui : State) (acq : Acquisition) (refMounted : Bool) (t : ℚ) : Session :=
  (Session.idle ui .camera t).perform (handleCameraStart ui acq refMounted)

/-- A change of the file input at time `t` in a component whose state is
`ui`; when the handler starts the reader, the image finishes loading at `t`
as well (line 76 reads `t`). -/
def uploadSession (ui : State) (file : Bool) (canvasMounted : Bool) (t : ℚ) : Session :=
  let s := (Session.idle ui .upload t).perform (handleFileUpload ui file)
  if file && ui.model.isSome then s.perform (imageOnload canvasMounted t) else s

/-! ## The mounted component -/

/-- What can happen to the mounted component: `loadModel` stores the
classifier (line 25), the user clicks "Use Camera" (line 151) or changes the
file input (line 157), or a timer or pending call of the running session
comes due. -/
inductive Action where
  | modelLoads
  | useCamera (acq : Acquisition) (refMounted : Bool) (t : ℚ)
  | fileChange (file : Bool) (canvasMounted : Bool) (t : ℚ)
  | later (e : Event)

/-- One action: `none` when it cannot happen.  The button and the file input
are rendered only under `!mode` (line 149), so a session can be started only
while `mode` is the empty string; the session then starts from the state the
component has at that moment. -/
def act (s : Session) : Action → Option Session
  | .modelLoads => some { s with ui := { s.ui with model := some loadedModel } }
  | .useCamera acq refMounted t =>
    if s.ui.mode = "" then some (cameraSession s.ui acq refMounted t) else none
  | .fileChange file canvasMounted t =>
    if s.ui.mode = "" then some (uploadSession s.ui file canvasMounted t) else none
  | .later e => step s e

/-- A sequence of actions, in the order in which they happen. -/
def play (s : Session) : List Action → Option Session
  | [] => some s
  | a :: as => (act s a).bind fun s => play s as

/-- The component right after it has been mounted. -/
def mounted : Session := Session.idle State.initial .camera 0

/-- Nothing is scheduled and no predict call is pending. -/
def Session.quiet (s : Session) : Prop :=
  s.intervalActive = false ∧ s.deadlineAt = none ∧ s.ticksInFlight = 0 ∧
    s.finalInFlight = false

/-- What holds all along a session started at time `t`: either nothing is
scheduled and no analysis time is stored, or the upload timers run with
`startTime` bound to `t`, the deadline due 3000 ms later, and any stored
analysis time measured from `t` to a reading at least 3000 ms later. -/
def Session.spans (t : ℚ) (s : Session) : Prop :=
  s.ui.mode ≠ "" ∧
    ((s.quiet ∧ s.ui.analysisTime = none) ∨
     (s.source = .upload ∧ s.startTime = some t ∧
      (∀ due, s.deadlineAt = some due → due = t + 3000) ∧
      (s.finalInFlight = true → t + 3000 ≤ s.clock) ∧
      (∀ a, s.ui.analysisTime = some a → a.startTime = t ∧ t + 3000 ≤ a.endTime)))

/-! ## Concrete inputs -/

/-- The initial state once `loadModel` has stored the classifier. -/
def modelLoaded : State := { State.initial with model := some loadedModel }

/-- Two entries with the same probability. -/
def tied : List Prediction := [⟨"Healthy", 1 / 2⟩, ⟨"At risk", 1 / 2⟩]

/-- A classifier output with a clear winner. -/
def sample : List Prediction := [⟨"Healthy", 9 / 10⟩, ⟨"At risk", 1 / 10⟩]

/-- A source of random numbers that always draws one half. -/
def drawHalf : Nat → ℚ := fun _ => 1 / 2

/-- A session whose deadline callback is waiting for its predict call. -/
def awaitingFinal (source : Source) : Session :=
  { Session.idle modelLoaded source 3000 with startTime := some 0, finalInFlight := true }

/-- An upload session at 2900 ms in which one tick is waiting for its
predict call. -/
def tickWaiting : Session :=
  { uploadSession modelLoaded true true 0 with
    clock := 2900, predictCalls := 1, ticksInFlight := 1 }

/-! ## Helper lemmas -/

theorem fold_pick_splits (rest : List Prediction) :
    ∀ (pre : List Prediction) (acc : Prediction) (mid : List Prediction),
      (∀ p ∈ pre, p.probability ≤ acc.probability) →
      (∀ p ∈ mid, p.probability < acc.probability) →
      ∃ l₁ top l₂, pre ++ acc :: (mid ++ rest) = l₁ ++ top :: l₂ ∧
        (∀ p ∈ l₁, p.probability ≤ top.probability) ∧
        (∀ p ∈ l₂, p.probability < top.probability) ∧
        rest.foldl pick acc = top := by
  induction rest with
  | nil =>
    intro pre acc mid hpre hmid
    exact ⟨pre, acc, mid, by simp, hpre, hmid, rfl⟩
  | cons c rs ih =>
    intro pre acc mid hpre hmid
    by_cases hc : acc.probability > c.probability
    · obtain ⟨l₁, top, l₂, hsplit, h₁, h₂, hfold⟩ :=
        ih pre acc (mid ++ [c]) hpre (by
          intro p hp
          rcases List.mem_append.mp hp with h | h
          · exact hmid p h
          · rw [List.mem_singleton.mp h]; exact hc)
      refine ⟨l₁, top, l₂, ?_, h₁, h₂, ?_⟩
      · rw [← hsplit]; simp
      · simpa [List.foldl, pick, hc] using hfold
    · have hle : acc.probability ≤ c.probability := not_lt.mp hc
      obtain ⟨l₁, top, l₂, hsplit, h₁, h₂, hfold⟩ :=
        ih (pre ++ acc :: mid) c [] (by
          intro p hp
          rcases List.mem_append.mp hp with h | h
          · exact (hpre p h).trans hle
          · rcases List.mem_cons.mp h with h | h
            · rw [h]; exact hle
            · exact (hmid p h).le.trans hle) (by simp)
      refine ⟨l₁, top, l₂, ?_, h₁, h₂, ?_⟩
      · rw [← hsplit]; simp
      · simpa [List.foldl, pick, hc] using hfold

theorem formatResult_cons_splits (p : Prediction) (rest : List Prediction) :
    ∃ l₁ top l₂, p :: rest = l₁ ++ top :: l₂ ∧
      (∀ q ∈ l₁, q.probability ≤ top.probability) ∧
      (∀ q ∈ l₂, q.probability < top.probability) ∧
      formatResult (p :: rest) = .ok (resultText top) := by
  obtain ⟨l₁, top, l₂, hsplit, h₁, h₂, hfold⟩ :=
    fold_pick_splits rest [] p [] (by simp) (by simp)
  refine ⟨l₁, top, l₂, by simpa using hsplit, h₁, h₂, ?_⟩
  simp [formatResult, reduce, hfold]

theorem toFixed2_of_round (x : ℚ) (n : Nat) (h0 : 0 ≤ x)
    (hlo : (n : ℚ) ≤ x * 100 + 1 / 2) (hhi : x * 100 + 1 / 2 < n + 1) :
    toFixed2 x = fixedDigits n := by
  have hfloor : ⌊|x| * 100 + 1 / 2⌋ = (n : ℤ) := by
    rw [abs_of_nonneg h0, Int.floor_eq_iff]
    exact ⟨by exact_mod_cast hlo, by exact_mod_cast hhi⟩
  unfold toFixed2
  rw [hfloor, if_neg (not_lt.mpr h0), Int.toNat_ofNat]
  simp

theorem perturbFrom_entry (jitterMax : ℚ) (random : Nat → ℚ) (ps : List Prediction) :
    ∀ (k i : Nat), (perturbFrom jitterMax random k ps)[i]? =
      (ps[i]?).map fun p =>
        { p with probability := min (p.probability + random (k + i) * jitterMax) 1 } := by
  induction ps with
  | nil => intro k i; simp [perturbFrom]
  | cons p rest ih =>
    intro k i
    cases i with
    | zero => simp [perturbFrom]
    | succ j =>
      simp only [perturbFrom, List.getElem?_cons_succ]
      rw [ih (k + 1) j]
      have : k + 1 + j = k + (j + 1) := by omega
      rw [this]

theorem perturbFrom_length (jitterMax : ℚ) (random : Nat → ℚ) (ps : List Prediction) :
    ∀ k : Nat, (perturbFrom jitterMax random k ps).length = ps.length := by
  induction ps with
  | nil => intro k; simp [perturbFrom]
  | cons p rest ih => intro k; simp [perturbFrom, ih (k + 1)]

theorem jitter_bounds (jitterMax orig r : ℚ) (hj : 0 ≤ jitterMax) (hr : 0 ≤ r)
    (h1 : orig ≤ 1) :
    orig ≤ min (orig + r * jitterMax) 1 ∧ min (orig + r * jitterMax) 1 ≤ 1 := by
  refine ⟨le_min ?_ h1, min_le_right _ _⟩
  have : 0 ≤ r * jitterMax := mul_nonneg hr hj
  linarith

theorem formatResult_nil :
    formatResult [] = .error "TypeError: Reduce of empty array with no initial value" := rfl

theorem formatResult_cons_ok (p : Prediction) (rest : List Prediction) :
    formatResult (p :: rest) = .ok (resultText (rest.foldl pick p)) := rfl

theorem step_finalReturns_cons (s : Session) (startTime t : ℚ) (p : Prediction)
    (rest : List Prediction) (hstart : s.startTime = some startTime)
    (hfinal : s.finalInFlight = true) (hclock : s.clock ≤ t) :
    step s (.finalReturns t (p :: rest)) =
      some { s with
        clock := t
        finalInFlight := false
        ui := { s.ui with
          predictions := p :: rest
          finalResult := resultText (rest.foldl pick p)
          analysisTime := some { startTime := startTime, endTime := t }
          isAnalyzing := false } } := by
  unfold step
  simp only [hstart]
  rw [if_pos ⟨hfinal, hclock⟩]
  cases hsrc : s.source <;> rfl

theorem step_deadline (s : Session) (due t : ℚ) (hdue : s.deadlineAt = some due)
    (hle : due ≤ t) (hclock : s.clock ≤ t) :
    step s (.deadline t) =
      some { s with
        clock := t
        deadlineAt := none
        intervalActive := false
        startTime := match s.source with
          | .camera => some t
          | .upload => s.startTime
        predictCalls := s.predictCalls + 1
        finalInFlight := true } := by
  obtain ⟨ui, source, clock, startTime, intervalActive, deadlineAt, ticksInFlight,
    finalInFlight, alerts, predictCalls, uncaught⟩ := s
  simp only at hdue hclock
  subst hdue
  unfold step
  simp only
  rw [if_pos ⟨hle, hclock⟩]
  cases source <;> rfl

theorem step_idle (s : Session) (hi : s.intervalActive = false) (hd : s.deadlineAt = none)
    (ht : s.ticksInFlight = 0) (hf : s.finalInFlight = false) (e : Event) :
    step s e = none := by
  cases e with
  | tick t => simp [step, hi]
  | tickReturns t ps random => simp [step, ht]
  | deadline t => simp [step, hd]
  | finalReturns t ps =>
    unfold step
    cases s.startTime with
    | none => rfl
    | some startTime => simp [hf]

theorem step_tick (s : Session) (t : ℚ) (hi : s.intervalActive = true) (hclock : s.clock ≤ t) :
    step s (.tick t) =
      some { s with
        clock := t
        predictCalls := s.predictCalls + 1
        ticksInFlight := s.ticksInFlight + 1 } := by
  obtain ⟨ui, source, clock, startTime, intervalActive, deadlineAt, ticksInFlight,
    finalInFlight, alerts, predictCalls, uncaught⟩ := s
  simp only at hi hclock
  unfold step
  simp only
  rw [if_pos ⟨hi, hclock⟩]
  cases source <;> rfl

theorem step_tickReturns (s : Session) (t : ℚ) (ps : List Prediction) (random : Nat → ℚ)
    (hp : 0 < s.ticksInFlight) (hclock : s.clock ≤ t) :
    step s (.tickReturns t ps random) =
      some { s with
        clock := t
        ticksInFlight := s.ticksInFlight - 1
        ui := { s.ui with
          predictions := perturbFrom
            (match s.source with
              | .camera => cameraJitter
              | .upload => uploadJitter) random 0 ps } } := by
  obtain ⟨ui, source, clock, startTime, intervalActive, deadlineAt, ticksInFlight,
    finalInFlight, alerts, predictCalls, uncaught⟩ := s
  simp only at hp hclock
  unfold step
  simp only
  rw [if_pos ⟨hp, hclock⟩]
  cases source <;> rfl

theorem run_step (s s' : Session) (e : Event) (es : List Event) (r : Option Session)
    (h : step s e = some s') (hrest : run s' es = r) : run s (e :: es) = r := by
  simp [run, h, hrest]

theorem perform_deadlineResume (s : Session) (startTime t : ℚ) (ps : List Prediction) :
    let s' := s.perform (match s.source with
      | .camera => cameraDeadlineResume startTime ps t
      | .upload => uploadDeadlineResume startTime ps t)
    s'.ui.predictions = ps ∧ s'.intervalActive = s.intervalActive ∧
      s'.deadlineAt = s.deadlineAt ∧ s'.predictCalls = s.predictCalls ∧
      s'.ticksInFlight = s.ticksInFlight ∧ s'.finalInFlight = s.finalInFlight := by
  obtain ⟨ui, source, clock, startTime, intervalActive, deadlineAt, ticksInFlight,
    finalInFlight, alerts, predictCalls, uncaught⟩ := s
  cases source <;> cases ps <;> exact ⟨rfl, rfl, rfl, rfl, rfl, rfl⟩

/-- What one event can do once the interval is cleared and the deadline has fired. -/
theorem step_after_deadline (s s' : Session) (e : Event) (hi : s.intervalActive = false)
    (hd : s.deadlineAt = none) (h : step s e = some s') :
    (∀ u, e ≠ .tick u) ∧ s'.intervalActive = false ∧ s'.deadlineAt = none ∧
      s'.predictCalls = s.predictCalls ∧ s'.ticksInFlight ≤ s.ticksInFlight ∧
      (s.ticksInFlight = 0 → ∃ u final, e = .finalReturns u final ∧
        s'.ui.predictions = final ∧ s'.finalInFlight = false ∧ s'.ticksInFlight = 0) := by
  cases e with
  | tick t => simp [step, hi] at h
  | deadline t => simp [step, hd] at h
  | tickReturns t ps random =>
    by_cases hen : 0 < s.ticksInFlight ∧ s.clock ≤ t
    · rw [step_tickReturns s t ps random hen.1 hen.2] at h
      have h' := Option.some.inj h
      subst h'
      refine ⟨(by intro u hu; cases hu), hi, hd, rfl, Nat.sub_le _ _, ?_⟩
      intro h0
      exact absurd hen.1 (by simp [h0])
    · simp only [step] at h
      rw [if_neg hen] at h
      cases h
  | finalReturns t ps =>
    simp only [step] at h
    cases hst : s.startTime with
    | none => simp [hst] at h
    | some startTime =>
      simp only [hst] at h
      by_cases hen : s.finalInFlight = true ∧ s.clock ≤ t
      · rw [if_pos hen] at h
        have h' := Option.some.inj h
        have hf := perform_deadlineResume
          { s with clock := t, finalInFlight := false, startTime := some startTime }
          startTime t ps
        simp only at hf
        rw [h'] at hf
        obtain ⟨hp, hi', hd', hc', ht', hf'⟩ := hf
        refine ⟨(by intro u hu; cases hu), hi'.trans hi, hd'.trans hd, hc', ht'.le, ?_⟩
        intro h0
        exact ⟨t, ps, rfl, hp, hf', ht'.trans h0⟩
      · rw [if_neg hen] at h
        cases h

/-- What a run can do once the interval is cleared and the deadline has fired. -/
theorem run_after_deadline (es : List Event) :
    ∀ (s s' : Session), s.intervalActive = false → s.deadlineAt = none →
      run s es = some s' →
      (∀ u, Event.tick u ∉ es) ∧ s'.intervalActive = false ∧
        s'.predictCalls = s.predictCalls ∧ s'.ticksInFlight ≤ s.ticksInFlight ∧
        (s.ticksInFlight = 0 → ∀ u final, Event.finalReturns u final ∈ es →
          s'.ui.predictions = final) := by
  induction es with
  | nil =>
    intro s s' hi _ h
    have h' : s = s' := Option.some.inj h
    subst h'
    exact ⟨by simp, hi, rfl, le_rfl, by simp⟩
  | cons e rest ih =>
    intro s s' hi hd h
    cases hstep : step s e with
    | none => simp [run, hstep] at h
    | some s₁ =>
      have hrest : run s₁ rest = some s' := by simpa [run, hstep] using h
      obtain ⟨hne, hi₁, hd₁, hc₁, ht₁, hzero⟩ := step_after_deadline s s₁ e hi hd hstep
      obtain ⟨hno, hi', hc', ht', _⟩ := ih s₁ s' hi₁ hd₁ hrest
      refine ⟨?_, hi', hc'.trans hc₁, ht'.trans ht₁, ?_⟩
      · intro u hu
        rcases List.mem_cons.mp hu with h | h
        · exact hne u h.symm
        · exact hno u h
      · intro h0 u final hmem
        obtain ⟨u₀, final₀, he, hp, hf, ht0⟩ := hzero h0
        have hnil : rest = [] := by
          cases rest with
          | nil => rfl
          | cons e' rest' =>
            simp [run, step_idle s₁ hi₁ hd₁ ht0 hf e'] at hrest
        subst hnil
        have h' : s₁ = s' := Option.some.inj hrest
        subst h'
        rw [he] at hmem
        simp only [List.mem_singleton, Event.finalReturns.injEq] at hmem
        rw [hmem.2]
        exact hp

theorem step_finalReturns_nil (s : Session) (startTime t : ℚ)
    (hstart : s.startTime = some startTime) (hfinal : s.finalInFlight = true)
    (hclock : s.clock ≤ t) :
    step s (.finalReturns t []) =
      some { s with
        clock := t
        finalInFlight := false
        uncaught := s.uncaught + 1
        ui := { s.ui with predictions := [] } } := by
  unfold step
  simp only [hstart]
  rw [if_pos ⟨hfinal, hclock⟩]
  cases hsrc : s.source <;> rfl

/-- Every enabled event has one of five shapes. -/
theorem step_inv (s s' : Session) (e : Event) (h : step s e = some s') :
    (∃ t, e = .tick t ∧ s.intervalActive = true ∧ s.clock ≤ t ∧
      s' = { s with
        clock := t
        predictCalls := s.predictCalls + 1
        ticksInFlight := s.ticksInFlight + 1 }) ∨
    (∃ t ps random, e = .tickReturns t ps random ∧ 0 < s.ticksInFlight ∧ s.clock ≤ t ∧
      s' = { s with
        clock := t
        ticksInFlight := s.ticksInFlight - 1
        ui := { s.ui with
          predictions := perturbFrom
            (match s.source with
              | .camera => cameraJitter
              | .upload => uploadJitter) random 0 ps } }) ∨
    (∃ t due, e = .deadline t ∧ s.deadlineAt = some due ∧ due ≤ t ∧ s.clock ≤ t ∧
      s' = { s with
        clock := t
        deadlineAt := none
        intervalActive := false
        startTime := match s.source with
          | .camera => some t
          | .upload => s.startTime
        predictCalls := s.predictCalls + 1
        finalInFlight := true }) ∨
    (∃ t startTime, e = .finalReturns t [] ∧ s.startTime = some startTime ∧
      s.finalInFlight = true ∧ s.clock ≤ t ∧
      s' = { s with
        clock := t
        finalInFlight := false
        uncaught := s.uncaught + 1
        ui := { s.ui with predictions := [] } }) ∨
    (∃ t startTime p rest, e = .finalReturns t (p :: rest) ∧ s.startTime = some startTime ∧
      s.finalInFlight = true ∧ s.clock ≤ t ∧
      s' = { s with
        clock := t
        finalInFlight := false
        ui := { s.ui with
          predictions := p :: rest
          finalResult := resultText (rest.foldl pick p)
          analysisTime := some { startTime := startTime, endTime := t }
          isAnalyzing := false } }) := by
  cases e with
  | tick t =>
    by_cases hen : s.intervalActive = true ∧ s.clock ≤ t
    · rw [step_tick s t hen.1 hen.2] at h
      exact Or.inl ⟨t, rfl, hen.1, hen.2, (Option.some.inj h).symm⟩
    · simp only [step] at h
      rw [if_neg hen] at h
      cases h
  | tickReturns t ps random =>
    by_cases hen : 0 < s.ticksInFlight ∧ s.clock ≤ t
    · rw [step_tickReturns s t ps random hen.1 hen.2] at h
      exact Or.inr (Or.inl ⟨t, ps, random, rfl, hen.1, hen.2, (Option.some.inj h).symm⟩)
    · simp only [step] at h
      rw [if_neg hen] at h
      cases h
  | deadline t =>
    cases hdue : s.deadlineAt with
    | none => simp [step, hdue] at h
    | some due =>
      by_cases hen : due ≤ t ∧ s.clock ≤ t
      · rw [step_deadline s due t hdue hen.1 hen.2] at h
        exact Or.inr (Or.inr (Or.inl
          ⟨t, due, rfl, rfl, hen.1, hen.2, (Option.some.inj h).symm⟩))
      · simp only [step, hdue] at h
        rw [if_neg hen] at h
        cases h
  | finalReturns t ps =>
    rcases Option.eq_none_or_eq_some s.startTime with hst | ⟨startTime, hst⟩
    · simp [step, hst] at h
    · by_cases hen : s.finalInFlight = true ∧ s.clock ≤ t
      · cases ps with
        | nil =>
          rw [step_finalReturns_nil s startTime t hst hen.1 hen.2] at h
          exact Or.inr (Or.inr (Or.inr (Or.inl
            ⟨t, startTime, rfl, hst, hen.1, hen.2, (Option.some.inj h).symm⟩)))
        | cons p rest =>
          rw [step_finalReturns_cons s startTime t p rest hst hen.1 hen.2] at h
          exact Or.inr (Or.inr (Or.inr (Or.inr
            ⟨t, startTime, p, rest, rfl, hst, hen.1, hen.2, (Option.some.inj h).symm⟩)))
      · simp only [step, hst] at h
        rw [if_neg hen] at h
        cases h

theorem step_mode (s s' : Session) (e : Event) (h : step s e = some s') :
    s'.ui.mode = s.ui.mode := by
  rcases step_inv s s' e h with ⟨t, _, _, _, rfl⟩ | ⟨t, ps, random, _, _, _, rfl⟩ |
    ⟨t, due, _, _, _, _, rfl⟩ | ⟨t, st, _, _, _, _, rfl⟩ | ⟨t, st, p, rest, _, _, _, _, rfl⟩ <;>
  rfl

theorem cameraSession_mode (ui : State) (acq : Acquisition) (refMounted : Bool) (t : ℚ) :
    (cameraSession ui acq refMounted t).ui.mode = "camera" := by
  obtain ⟨model, webcam, predictions, analysisTime, finalResult, isAnalyzing, mode⟩ := ui
  cases acq <;> cases refMounted <;> cases model <;> cases webcam <;> rfl

theorem uploadSession_mode (ui : State) (file canvasMounted : Bool) (t : ℚ) :
    (uploadSession ui file canvasMounted t).ui.mode = "upload" := by
  obtain ⟨model, webcam, predictions, analysisTime, finalResult, isAnalyzing, mode⟩ := ui
  cases file <;> cases canvasMounted <;> cases model <;> rfl

/-- A camera start from a render without a stored webcam schedules nothing. -/
theorem cameraSession_of_no_webcam (ui : State) (acq : Acquisition) (refMounted : Bool)
    (t : ℚ) (hw : ui.webcam = none) :
    (cameraSession ui acq refMounted t).quiet ∧
      (cameraSession ui acq refMounted t).ui.analysisTime = ui.analysisTime ∧
      (cameraSession ui acq refMounted t).ui.predictions = ui.predictions ∧
      (cameraSession ui acq refMounted t).ui.finalResult = ui.finalResult ∧
      (cameraSession ui acq refMounted t).ui.isAnalyzing = true ∧
      (cameraSession ui acq refMounted t).predictCalls = 0 := by
  obtain ⟨model, webcam, predictions, analysisTime, finalResult, isAnalyzing, mode⟩ := ui
  simp only at hw
  subst hw
  cases acq <;> cases refMounted <;> cases model <;>
    exact ⟨⟨rfl, rfl, rfl, rfl⟩, rfl, rfl, rfl, rfl, rfl⟩

/-- An upload start either passes the guard of line 61 and schedules both
timers at `t`, or schedules nothing. -/
theorem uploadSession_shape (ui : State) (file canvasMounted : Bool) (t : ℚ) :
    (uploadSession ui file canvasMounted t).ui.analysisTime = ui.analysisTime ∧
      (uploadSession ui file canvasMounted t).ui.predictions = ui.predictions ∧
      (uploadSession ui file canvasMounted t).ui.finalResult = ui.finalResult ∧
      (uploadSession ui file canvasMounted t).predictCalls = 0 ∧
      (uploadSession ui file canvasMounted t).ticksInFlight = 0 ∧
      (uploadSession ui file canvasMounted t).ui.isAnalyzing
        = (if file && ui.model.isSome then true else ui.isAnalyzing) ∧
      (((uploadSession ui file canvasMounted t).quiet) ∨
       ((uploadSession ui file canvasMounted t).source = .upload ∧
        (uploadSession ui file canvasMounted t).startTime = some t ∧
        (uploadSession ui file canvasMounted t).deadlineAt = some (t + 3000) ∧
        (uploadSession ui file canvasMounted t).finalInFlight = false)) := by
  obtain ⟨model, webcam, predictions, analysisTime, finalResult, isAnalyzing, mode⟩ := ui
  have hcast : t + ((3000 : ℕ) : ℚ) = t + 3000 := by norm_num
  cases file <;> cases canvasMounted <;> cases model
  all_goals first
    | exact ⟨rfl, rfl, rfl, rfl, rfl, rfl, Or.inl ⟨rfl, rfl, rfl, rfl⟩⟩
    | exact ⟨rfl, rfl, rfl, rfl, rfl, rfl, Or.inr ⟨rfl, rfl, congrArg some hcast, rfl⟩⟩

/-- While the start controls are rendered nothing has been stored or scheduled. -/
theorem act_fresh (s s' : Session) (a : Action)
    (hinv : s.ui.mode = "" → s.ui.webcam = none ∧ s.ui.predictions = [] ∧
      s.ui.analysisTime = none ∧ s.ui.finalResult = "" ∧ s.ui.isAnalyzing = false ∧ s.quiet)
    (h : act s a = some s') :
    s'.ui.mode = "" → s'.ui.webcam = none ∧ s'.ui.predictions = [] ∧
      s'.ui.analysisTime = none ∧ s'.ui.finalResult = "" ∧ s'.ui.isAnalyzing = false ∧
      s'.quiet := by
  intro hm
  cases a with
  | modelLoads =>
    have h' : s' = { s with ui := { s.ui with model := some loadedModel } } :=
      (Option.some.inj h).symm
    subst h'
    exact hinv hm
  | useCamera acq refMounted t =>
    by_cases hs : s.ui.mode = ""
    · simp only [act] at h
      rw [if_pos hs] at h
      have h' := Option.some.inj h
      subst h'
      rw [cameraSession_mode] at hm
      exact absurd hm (by decide)
    · simp only [act] at h
      rw [if_neg hs] at h
      cases h
  | fileChange file canvasMounted t =>
    by_cases hs : s.ui.mode = ""
    · simp only [act] at h
      rw [if_pos hs] at h
      have h' := Option.some.inj h
      subst h'
      rw [uploadSession_mode] at hm
      exact absurd hm (by decide)
    · simp only [act] at h
      rw [if_neg hs] at h
      cases h
  | later e =>
    have hstep : step s e = some s' := h
    have hs : s.ui.mode = "" := (step_mode s s' e hstep).symm.trans hm
    obtain ⟨_, _, _, _, _, hq⟩ := hinv hs
    rw [step_idle s hq.1 hq.2.1 hq.2.2.1 hq.2.2.2 e] at hstep
    cases hstep

theorem play_fresh (history : List Action) :
    ∀ (s s' : Session),
      (s.ui.mode = "" → s.ui.webcam = none ∧ s.ui.predictions = [] ∧
        s.ui.analysisTime = none ∧ s.ui.finalResult = "" ∧ s.ui.isAnalyzing = false ∧
        s.quiet) →
      play s history = some s' →
      (s'.ui.mode = "" → s'.ui.webcam = none ∧ s'.ui.predictions = [] ∧
        s'.ui.analysisTime = none ∧ s'.ui.finalResult = "" ∧ s'.ui.isAnalyzing = false ∧
        s'.quiet) := by
  induction history with
  | nil =>
    intro s s' hinv h
    have h' : s = s' := Option.some.inj h
    subst h'
    exact hinv
  | cons a rest ih =>
    intro s s' hinv h
    cases hact : act s a with
    | none => simp [play, hact] at h
    | some s₁ =>
      have hrest : play s₁ rest = some s' := by simpa [play, hact] using h
      exact ih s₁ s' (act_fresh s s₁ a hinv hact) hrest

/-- Every state the mounted component reaches with its start controls still
rendered is the initial one, up to the stored model. -/
theorem mounted_fresh (history : List Action) (s : Session)
    (h : play mounted history = some s) (hm : s.ui.mode = "") :
    s.ui.webcam = none ∧ s.ui.predictions = [] ∧ s.ui.analysisTime = none ∧
      s.ui.finalResult = "" ∧ s.ui.isAnalyzing = false ∧ s.quiet :=
  play_fresh history mounted s
    (fun _ => ⟨rfl, rfl, rfl, rfl, rfl, ⟨rfl, rfl, rfl, rfl⟩⟩) h hm

/-- One action keeps `spans`, and stores a new analysis time only when a
final predict call returns, with the time of that return as its end. -/
theorem act_spans (t : ℚ) (s s' : Session) (a : Action) (hinv : s.spans t)
    (h : act s a = some s') :
    s'.spans t ∧
      ∀ el, s'.ui.analysisTime = some el →
        s.ui.analysisTime = some el ∨
          ∃ ps, a = .later (.finalReturns el.endTime ps) := by
  obtain ⟨hm, hcases⟩ := hinv
  cases a with
  | modelLoads =>
    have h' : s' = { s with ui := { s.ui with model := some loadedModel } } :=
      (Option.some.inj h).symm
    subst h'
    exact ⟨⟨hm, hcases⟩, fun el hel => Or.inl hel⟩
  | useCamera acq refMounted u =>
    simp only [act] at h
    rw [if_neg hm] at h
    cases h
  | fileChange file canvasMounted u =>
    simp only [act] at h
    rw [if_neg hm] at h
    cases h
  | later e =>
    have hstep : step s e = some s' := h
    rcases hcases with ⟨hq, _⟩ | ⟨hsrc, hst, hdue, hfin, han⟩
    · rw [step_idle s hq.1 hq.2.1 hq.2.2.1 hq.2.2.2 e] at hstep
      cases hstep
    · rcases step_inv s s' e hstep with ⟨u, _, _, hclock, rfl⟩ |
        ⟨u, ps, random, _, _, hclock, rfl⟩ | ⟨u, due, _, hd, hle, hclock, rfl⟩ |
        ⟨u, st, _, hst', hf, hclock, rfl⟩ | ⟨u, st, p, rest, he, hst', hf, hclock, rfl⟩
      · exact ⟨⟨hm, Or.inr ⟨hsrc, hst, hdue, fun hf => (hfin hf).trans hclock, han⟩⟩,
          fun el hel => Or.inl hel⟩
      · exact ⟨⟨hm, Or.inr ⟨hsrc, hst, hdue, fun hf => (hfin hf).trans hclock, han⟩⟩,
          fun el hel => Or.inl hel⟩
      · refine ⟨⟨hm, Or.inr ⟨hsrc, ?_, ?_, ?_, han⟩⟩, fun el hel => Or.inl hel⟩
        · show (match s.source with
            | .camera => some u
            | .upload => s.startTime) = some t
          rw [hsrc]
          exact hst
        · intro due' hd'
          cases hd'
        · intro _
          show t + 3000 ≤ u
          rw [← hdue due hd]
          exact hle
      · exact ⟨⟨hm, Or.inr ⟨hsrc, hst, hdue, fun hf' => absurd hf' (by simp), han⟩⟩,
          fun el hel => Or.inl hel⟩
      · have hstt : st = t := Option.some.inj (hst'.symm.trans hst)
        have hlate : t + 3000 ≤ u := (hfin hf).trans hclock
        refine ⟨⟨hm, Or.inr ⟨hsrc, hst, hdue, fun hf' => absurd hf' (by simp), ?_⟩⟩, ?_⟩
        · intro el hel
          have hel' : ({ startTime := st, endTime := u } : Elapsed) = el :=
            Option.some.inj hel
          subst hel'
          exact ⟨hstt, hlate⟩
        · intro el hel
          have hel' : ({ startTime := st, endTime := u } : Elapsed) = el :=
            Option.some.inj hel
          subst hel'
          exact Or.inr ⟨p :: rest, by rw [he]⟩

theorem play_spans (t : ℚ) (rest : List Action) :
    ∀ (s s' : Session), s.spans t → play s rest = some s' →
      s'.spans t ∧
        ∀ el, s'.ui.analysisTime = some el →
          s.ui.analysisTime = some el ∨
            ∃ ps, Action.later (.finalReturns el.endTime ps) ∈ rest := by
  induction rest with
  | nil =>
    intro s s' hinv h
    have h' : s = s' := Option.some.inj h
    subst h'
    exact ⟨hinv, fun el hel => Or.inl hel⟩
  | cons a rest ih =>
    intro s s' hinv h
    cases hact : act s a with
    | none => simp [play, hact] at h
    | some s₁ =>
      have hrest : play s₁ rest = some s' := by simpa [play, hact] using h
      obtain ⟨hinv₁, hnew₁⟩ := act_spans t s s₁ a hinv hact
      obtain ⟨hinv', hnew'⟩ := ih s₁ s' hinv₁ hrest
      refine ⟨hinv', ?_⟩
      intro el hel
      rcases hnew' el hel with h₁ | ⟨ps, hps⟩
      · rcases hnew₁ el h₁ with h₀ | ⟨ps, hps⟩
        · exact Or.inl h₀
        · exact Or.inr ⟨ps, by rw [hps]; exact List.mem_cons_self _ _⟩
      · exact Or.inr ⟨ps, List.mem_cons_of_mem _ hps⟩

/-- A session started while the start controls are rendered satisfies `spans`
for its starting time and stores no analysis time yet. -/
theorem start_spans (history : List Action) (s₀ s₁ : Session) (start : Action) (t : ℚ)
    (h0 : play mounted history = some s₀)
    (hstart : (∃ acq refMounted, start = .useCamera acq refMounted t) ∨
      (∃ file canvasMounted, start = .fileChange file canvasMounted t))
    (h1 : act s₀ start = some s₁) :
    s₁.spans t ∧ s₁.ui.analysisTime = none := by
  rcases hstart with ⟨acq, refMounted, rfl⟩ | ⟨file, canvasMounted, rfl⟩
  · by_cases hs : s₀.ui.mode = ""
    · obtain ⟨hw, _, ha, _, _, _⟩ := mounted_fresh history s₀ h0 hs
      simp only [act] at h1
      rw [if_pos hs] at h1
      have h' := Option.some.inj h1
      subst h'
      obtain ⟨hq, han, _⟩ := cameraSession_of_no_webcam s₀.ui acq refMounted t hw
      refine ⟨⟨?_, Or.inl ⟨hq, han.trans ha⟩⟩, han.trans ha⟩
      rw [cameraSession_mode]
      decide
    · simp only [act] at h1
      rw [if_neg hs] at h1
      cases h1
  · by_cases hs : s₀.ui.mode = ""
    · obtain ⟨_, _, ha, _, _, _⟩ := mounted_fresh history s₀ h0 hs
      simp only [act] at h1
      rw [if_pos hs] at h1
      have h' := Option.some.inj h1
      subst h'
      obtain ⟨han, _, _, _, _, _, hshape⟩ := uploadSession_shape s₀.ui file canvasMounted t
      have hnone := han.trans ha
      refine ⟨⟨?_, ?_⟩, hnone⟩
      · rw [uploadSession_mode]
        decide
      · rcases hshape with hq | ⟨hsrc, hst, hdue, hfin⟩
        · exact Or.inl ⟨hq, hnone⟩
        · refine Or.inr ⟨hsrc, hst, ?_, ?_, ?_⟩
          · intro due hd
            exact (Option.some.inj (hdue.symm.trans hd)).symm
          · intro hf
            rw [hfin] at hf
            cases hf
          · intro a hsome
            rw [hnone] at hsome
            cases hsome
    · simp only [act] at h1
      rw [if_neg hs] at h1
      cases h1

theorem play_act (s s' : Session) (a : Action) (rest : List Action) (r : Option Session)
    (h : act s a = some s') (hrest : play s' rest = r) : play s (a :: rest) = r := by
  simp [play, h, hrest]

/-! ## The claims -/

/-- C1, as stated, fails: of two entries that share the maximum probability
formatResult reports the second one, not the first. -/
theorem formatResult_tie_reports_second :
    formatResult tied = .ok "At risk: 0.50" ∧ formatResult tied ≠ .ok "Healthy: 0.50" := by
  have hfix : toFixed2 (1 / 2) = "0.50" := by
    rw [toFixed2_of_round (1 / 2) 50 (by norm_num) (by norm_num) (by norm_num)]
    decide
  have htop : formatResult tied = .ok (resultText ⟨"At risk", 1 / 2⟩) := by
    simp [formatResult, reduce, tied, pick]
  have htext : resultText ⟨"At risk", 1 / 2⟩ = "At risk: 0.50" := by
    unfold resultText
    rw [hfix]
    decide
  rw [htop, htext]
  refine ⟨rfl, ?_⟩
  intro h
  exact absurd (Except.ok.inj h) (by decide)

/-- C1, amended: for every non-empty sequence of entries, formatResult
reports an entry of maximum probability, and when several entries share that
maximum it reports the last of them in return order: every entry before the
reported one has a probability at most its own, every entry after it a
strictly smaller one. -/
theorem formatResult_reports_last_maximum (predictions : List Prediction)
    (h : predictions ≠ []) :
    ∃ l₁ top l₂, predictions = l₁ ++ top :: l₂ ∧
      (∀ p ∈ l₁, p.probability ≤ top.probability) ∧
      (∀ p ∈ l₂, p.probability < top.probability) ∧
      formatResult predictions =
        .ok (top.className ++ ": " ++ toFixed2 top.probability) := by
  cases predictions with
  | nil => exact absurd rfl h
  | cons p rest => exact formatResult_cons_splits p rest

/-- C1, amended, at two tied entries. -/
theorem formatResult_reports_last_maximum_witness :
    tied ≠ [] ∧
    ∃ l₁ top l₂, tied = l₁ ++ top :: l₂ ∧
      (∀ p ∈ l₁, p.probability ≤ top.probability) ∧
      (∀ p ∈ l₂, p.probability < top.probability) ∧
      formatResult tied = .ok (top.className ++ ": " ++ toFixed2 top.probability) :=
  ⟨by simp [tied], formatResult_reports_last_maximum tied (by simp [tied])⟩

/-- C2: for every sequence returned by a tick's predict call whose
probabilities lie in [0, 1] and every stream of random draws in [0, 1), the
camera tick (jitter 0.1) and the upload tick (jitter 0.2) each store one
displayed entry per returned entry, with the same label and the probability
min(original + r * jitterMax, 1), which is at least the original and at
most 1. -/
theorem tick_display_bounds (predictions : List Prediction) (random : Nat → ℚ)
    (hp : ∀ p ∈ predictions, 0 ≤ p.probability ∧ p.probability ≤ 1)
    (hr : ∀ i, 0 ≤ random i ∧ random i < 1) :
    ∃ shownCamera shownUpload,
      cameraTickResume predictions random = [.setPredictions shownCamera] ∧
      uploadTickResume predictions random = [.setPredictions shownUpload] ∧
      shownCamera.length = predictions.length ∧
      shownUpload.length = predictions.length ∧
      ∀ i p, predictions[i]? = some p →
        ∃ c u, shownCamera[i]? = some c ∧ shownUpload[i]? = some u ∧
          c.className = p.className ∧ u.className = p.className ∧
          c.probability = min (p.probability + random i * (1 / 10)) 1 ∧
          u.probability = min (p.probability + random i * (2 / 10)) 1 ∧
          p.probability ≤ c.probability ∧ c.probability ≤ 1 ∧
          p.probability ≤ u.probability ∧ u.probability ≤ 1 := by
  refine ⟨_, _, rfl, rfl, perturbFrom_length _ _ _ _, perturbFrom_length _ _ _ _, ?_⟩
  intro i p hi
  have hmem : p ∈ predictions := List.getElem?_mem hi
  have hc := jitter_bounds (1 / 10) p.probability (random i) (by norm_num) (hr i).1 (hp p hmem).2
  have hu := jitter_bounds (2 / 10) p.probability (random i) (by norm_num) (hr i).1 (hp p hmem).2
  refine ⟨{ p with probability := min (p.probability + random i * (1 / 10)) 1 },
    { p with probability := min (p.probability + random i * (2 / 10)) 1 },
    ?_, ?_, rfl, rfl, rfl, rfl, hc.1, hc.2, hu.1, hu.2⟩
  · rw [perturbFrom_entry, hi]; simp [cameraJitter]
  · rw [perturbFrom_entry, hi]; simp [uploadJitter]

/-- C2 at a concrete classifier output and a concrete random source. -/
theorem tick_display_bounds_witness :
    (∀ p ∈ sample, 0 ≤ p.probability ∧ p.probability ≤ 1) ∧
    (∀ i, 0 ≤ drawHalf i ∧ drawHalf i < 1) ∧
    ∃ shownCamera shownUpload,
      cameraTickResume sample drawHalf = [.setPredictions shownCamera] ∧
      uploadTickResume sample drawHalf = [.setPredictions shownUpload] ∧
      shownCamera.length = sample.length ∧
      shownUpload.length = sample.length ∧
      ∀ i p, sample[i]? = some p →
        ∃ c u, shownCamera[i]? = some c ∧ shownUpload[i]? = some u ∧
          c.className = p.className ∧ u.className = p.className ∧
          c.probability = min (p.probability + drawHalf i * (1 / 10)) 1 ∧
          u.probability = min (p.probability + drawHalf i * (2 / 10)) 1 ∧
          p.probability ≤ c.probability ∧ c.probability ≤ 1 ∧
          p.probability ≤ u.probability ∧ u.probability ≤ 1 :=
  have hp : ∀ p ∈ sample, 0 ≤ p.probability ∧ p.probability ≤ 1 := by
    intro p hp
    simp only [sample, List.mem_cons, List.mem_singleton, List.not_mem_nil, or_false] at hp
    rcases hp with h | h <;> subst h <;> norm_num
  have hr : ∀ i, 0 ≤ drawHalf i ∧ drawHalf i < 1 := by
    intro i; norm_num [drawHalf]
  ⟨hp, hr, tick_display_bounds sample drawHalf hp hr⟩

/-- C4: in both modes, when the pending final predict call of the deadline
callback returns a non-empty sequence, the callback runs to its end and leaves
the stored predictions equal to that sequence entry for entry, the final
result built from an entry of maximum probability (its label and that
probability to two decimals), and isAnalyzing false. -/
theorem deadline_callback_result (s : Session) (startTime t : ℚ)
    (predictions : List Prediction) (hne : predictions ≠ [])
    (hstart : s.startTime = some startTime) (hfinal : s.finalInFlight = true)
    (hclock : s.clock ≤ t) :
    ∃ s' top, step s (.finalReturns t predictions) = some s' ∧
      s'.ui.predictions = predictions ∧
      top ∈ predictions ∧ (∀ p ∈ predictions, p.probability ≤ top.probability) ∧
      s'.ui.finalResult = top.className ++ ": " ++ toFixed2 top.probability ∧
      s'.ui.isAnalyzing = false ∧ s'.finalInFlight = false ∧ s'.uncaught = s.uncaught := by
  cases predictions with
  | nil => exact absurd rfl hne
  | cons p rest =>
    obtain ⟨l₁, top, l₂, hsplit, h₁, h₂, hfmt⟩ := formatResult_cons_splits p rest
    have htop : resultText (rest.foldl pick p) = resultText top := by
      rw [formatResult_cons_ok] at hfmt
      exact Except.ok.inj hfmt
    have hmax : ∀ q ∈ p :: rest, q.probability ≤ top.probability := by
      intro q hq
      rw [hsplit] at hq
      rcases List.mem_append.mp hq with h | h
      · exact h₁ q h
      · rcases List.mem_cons.mp h with h | h
        · rw [h]
        · exact (h₂ q h).le
    have hmem : top ∈ p :: rest := by rw [hsplit]; simp
    refine ⟨_, top, step_finalReturns_cons s startTime t p rest hstart hfinal hclock, rfl,
      hmem, hmax, ?_, rfl, rfl, rfl⟩
    show resultText (rest.foldl pick p) = _
    rw [htop]
    rfl

/-- C4 on a camera session whose final predict call returns two entries. -/
theorem deadline_callback_result_witness :
    sample ≠ [] ∧ (awaitingFinal .camera).startTime = some 0 ∧
    (awaitingFinal .camera).finalInFlight = true ∧ (awaitingFinal .camera).clock ≤ 3040 ∧
    ∃ s' top, step (awaitingFinal .camera) (.finalReturns 3040 sample) = some s' ∧
      s'.ui.predictions = sample ∧
      top ∈ sample ∧ (∀ p ∈ sample, p.probability ≤ top.probability) ∧
      s'.ui.finalResult = top.className ++ ": " ++ toFixed2 top.probability ∧
      s'.ui.isAnalyzing = false ∧ s'.finalInFlight = false ∧
      s'.uncaught = (awaitingFinal .camera).uncaught :=
  have hclock : (awaitingFinal .camera).clock ≤ 3040 := by
    show (3000 : ℚ) ≤ 3040
    norm_num
  ⟨by simp [sample], rfl, rfl, hclock,
    deadline_callback_result (awaitingFinal .camera) 0 3040 sample (by simp [sample]) rfl rfl
      hclock⟩

/-- C10: formatResult raises exactly on the empty sequence and returns a
result on every other one; when the final predict call returns the empty
sequence, the deadline callback of either mode stops right after
setPredictions: finalResult, analysisTime and isAnalyzing keep their values. -/
theorem formatResult_raises_iff_empty :
    (∀ ps, (∃ e, formatResult ps = .error e) ↔ ps = []) ∧
    (∀ ps, (∃ r, formatResult ps = .ok r) ↔ ps ≠ []) ∧
    (∀ startTime endTime,
      cameraDeadlineResume startTime [] endTime =
        [.setPredictions [],
         .uncaught "TypeError: Reduce of empty array with no initial value"] ∧
      uploadDeadlineResume startTime [] endTime =
        [.setPredictions [],
         .uncaught "TypeError: Reduce of empty array with no initial value"]) ∧
    (∀ (s : Session) (startTime endTime : ℚ),
      (s.perform (cameraDeadlineResume startTime [] endTime)).ui
        = { s.ui with predictions := [] } ∧
      (s.perform (uploadDeadlineResume startTime [] endTime)).ui
        = { s.ui with predictions := [] } ∧
      (s.perform (cameraDeadlineResume startTime [] endTime)).uncaught = s.uncaught + 1 ∧
      (s.perform (uploadDeadlineResume startTime [] endTime)).uncaught = s.uncaught + 1) := by
  refine ⟨?_, ?_, fun _ _ => ⟨rfl, rfl⟩, fun _ _ _ => ⟨rfl, rfl, rfl, rfl⟩⟩
  · intro ps
    cases ps with
    | nil => simp [formatResult_nil]
    | cons p rest => simp [formatResult_cons_ok]
  · intro ps
    cases ps with
    | nil => simp [formatResult_nil]
    | cons p rest => simp [formatResult_cons_ok]

/-- C3: whenever a session, started by either handler while the start
controls are rendered, has an analysis time stored, that time is measured
from the start of the session (the reading of line 76, taken before the tick
interval is scheduled) to the moment at which a final predict call returned,
and the two are at least 3000 ms apart.  Only upload sessions ever store one:
from such a start runAnalysis schedules nothing. -/
theorem analysisTime_spans_session (history rest : List Action) (s₀ s₁ s₂ : Session)
    (start : Action) (t : ℚ) (a : Elapsed)
    (h0 : play mounted history = some s₀)
    (hstart : (∃ acq refMounted, start = .useCamera acq refMounted t) ∨
      (∃ file canvasMounted, start = .fileChange file canvasMounted t))
    (h1 : act s₀ start = some s₁) (h2 : play s₁ rest = some s₂)
    (ha : s₂.ui.analysisTime = some a) :
    a.startTime = t ∧
      (∃ ps, Action.later (.finalReturns a.endTime ps) ∈ rest) ∧
      3000 ≤ a.endTime - a.startTime ∧ s₂.source = .upload := by
  obtain ⟨hsp₁, hnone⟩ := start_spans history s₀ s₁ start t h0 hstart h1
  obtain ⟨⟨_, hcases⟩, hnew⟩ := play_spans t rest s₁ s₂ hsp₁ h2
  have hev : ∃ ps, Action.later (.finalReturns a.endTime ps) ∈ rest := by
    rcases hnew a ha with h | h
    · rw [hnone] at h
      cases h
    · exact h
  rcases hcases with ⟨_, hn⟩ | ⟨hsrc, _, _, _, han⟩
  · rw [hn] at ha
    cases ha
  · obtain ⟨hs, he⟩ := han a ha
    refine ⟨hs, hev, ?_, hsrc⟩
    rw [hs]
    linarith

/-- C3 on an upload started at 0 ms with the model loaded, whose deadline
fires at 3000 ms and whose final predict call returns at 3040 ms. -/
theorem analysisTime_spans_session_witness :
    ∃ s₀ s₁ s₂,
      play mounted [.modelLoads] = some s₀ ∧
      act s₀ (.fileChange true true 0) = some s₁ ∧
      play s₁ [.later (.deadline 3000), .later (.finalReturns 3040 sample)] = some s₂ ∧
      s₂.ui.analysisTime = some { startTime := 0, endTime := 3040 } ∧
      (0 : ℚ) = 0 ∧
      (∃ ps, Action.later (.finalReturns 3040 ps) ∈
        [Action.later (.deadline 3000), Action.later (.finalReturns 3040 sample)]) ∧
      (3000 : ℚ) ≤ 3040 - 0 ∧ s₂.source = .upload := by
  have h3000 : ((0 : ℚ) + (3000 : ℕ)) ≤ 3000 := by norm_num
  have hz : (0 : ℚ) ≤ 3000 := by norm_num
  have h0 : play mounted [.modelLoads]
      = some { mounted with ui := { mounted.ui with model := some loadedModel } } := rfl
  have h1 : act { mounted with ui := { mounted.ui with model := some loadedModel } }
      (.fileChange true true 0) = some (uploadSession modelLoaded true true 0) := rfl
  obtain ⟨s₂, hd, hc₂, hs₂, hf₂⟩ :
      ∃ s₂, step (uploadSession modelLoaded true true 0) (.deadline 3000) = some s₂ ∧
        s₂.clock = 3000 ∧ s₂.startTime = some 0 ∧ s₂.finalInFlight = true :=
    ⟨_, step_deadline (uploadSession modelLoaded true true 0) _ 3000 rfl h3000 hz,
      rfl, rfl, rfl⟩
  obtain ⟨s₃, hfin, han⟩ :
      ∃ s₃, step s₂ (.finalReturns 3040 sample) = some s₃ ∧
        s₃.ui.analysisTime = some { startTime := 0, endTime := 3040 } :=
    ⟨_, step_finalReturns_cons s₂ 0 3040 _ _ hs₂ hf₂ (by rw [hc₂]; norm_num), rfl⟩
  have h2 : play (uploadSession modelLoaded true true 0)
      [.later (.deadline 3000), .later (.finalReturns 3040 sample)] = some s₃ :=
    play_act _ _ _ _ _ hd (play_act _ _ _ _ _ hfin rfl)
  exact ⟨_, _, s₃, h0, h1, h2, han,
    analysisTime_spans_session [.modelLoads] _ _ _ s₃ (.fileChange true true 0) 0
      { startTime := 0, endTime := 3040 } h0 (Or.inr ⟨true, true, rfl⟩) h1 h2 han⟩

/-- C5 fails on isAnalyzing: when setup or play throws in a component whose
model is loaded, handleCameraStart shows the notice, stores no webcam and
starts no timer, but line 53 still sets isAnalyzing to true. -/
theorem camera_failure_still_marks_analyzing (refMounted : Bool) (t : ℚ) :
    (cameraSession modelLoaded .setupThrows refMounted t).alerts = 1 ∧
    (cameraSession modelLoaded .setupThrows refMounted t).ui.webcam = none ∧
    (cameraSession modelLoaded .setupThrows refMounted t).intervalActive = false ∧
    (cameraSession modelLoaded .setupThrows refMounted t).deadlineAt = none ∧
    (cameraSession modelLoaded .setupThrows refMounted t).ui.isAnalyzing = true ∧
    (cameraSession modelLoaded .playThrows refMounted t).alerts = 1 ∧
    (cameraSession modelLoaded .playThrows refMounted t).ui.webcam = none ∧
    (cameraSession modelLoaded .playThrows refMounted t).intervalActive = false ∧
    (cameraSession modelLoaded .playThrows refMounted t).deadlineAt = none ∧
    (cameraSession modelLoaded .playThrows refMounted t).ui.isAnalyzing = true :=
  ⟨rfl, rfl, rfl, rfl, rfl, rfl, rfl, rfl, rfl, rfl⟩

/-- C6 fails on isAnalyzing for the camera entry: with no model stored,
handleCameraStart makes no predict call and starts no timer, yet line 53 sets
isAnalyzing to true; handleFileUpload, whose guard on line 61 covers its
setIsAnalyzing, leaves it false. -/
theorem camera_start_without_model_marks_analyzing (acq : Acquisition) (refMounted : Bool)
    (file canvasMounted : Bool) (t : ℚ) :
    (cameraSession State.initial acq refMounted t).predictCalls = 0 ∧
    (cameraSession State.initial acq refMounted t).intervalActive = false ∧
    (cameraSession State.initial acq refMounted t).deadlineAt = none ∧
    (∀ e, step (cameraSession State.initial acq refMounted t) e = none) ∧
    (cameraSession State.initial acq refMounted t).ui.isAnalyzing = true ∧
    (uploadSession State.initial file canvasMounted t).predictCalls = 0 ∧
    (uploadSession State.initial file canvasMounted t).intervalActive = false ∧
    (uploadSession State.initial file canvasMounted t).deadlineAt = none ∧
    (uploadSession State.initial file canvasMounted t).ui.isAnalyzing = false := by
  have hc : (cameraSession State.initial acq refMounted t).predictCalls = 0 ∧
      (cameraSession State.initial acq refMounted t).intervalActive = false ∧
      (cameraSession State.initial acq refMounted t).deadlineAt = none ∧
      (cameraSession State.initial acq refMounted t).ticksInFlight = 0 ∧
      (cameraSession State.initial acq refMounted t).finalInFlight = false ∧
      (cameraSession State.initial acq refMounted t).ui.isAnalyzing = true := by
    cases acq <;> cases refMounted <;> exact ⟨rfl, rfl, rfl, rfl, rfl, rfl⟩
  refine ⟨hc.1, hc.2.1, hc.2.2.1, step_idle _ hc.2.1 hc.2.2.1 hc.2.2.2.1 hc.2.2.2.2.1,
    hc.2.2.2.2.2, ?_⟩
  cases file <;> exact ⟨rfl, rfl, rfl, rfl⟩

/-- C9 fails: from the initial state with the model loaded, a click on
"Use Camera" whose webcam acquisition succeeds stores the webcam and sets
isAnalyzing, but runAnalysis sees the webcam value of the render that built
the handler (null) and returns on line 109: no interval, no deadline, no
predict call; no event can follow, and finalResult stays unset. -/
theorem camera_start_never_schedules (refMounted : Bool) (t : ℚ) :
    runAnalysis modelLoaded = [] ∧
    (cameraSession modelLoaded .ready refMounted t).ui.webcam
      = some { width := 300, height := 300, flip := true } ∧
    (cameraSession modelLoaded .ready refMounted t).ui.isAnalyzing = true ∧
    (cameraSession modelLoaded .ready refMounted t).intervalActive = false ∧
    (cameraSession modelLoaded .ready refMounted t).deadlineAt = none ∧
    (cameraSession modelLoaded .ready refMounted t).predictCalls = 0 ∧
    (∀ e, step (cameraSession modelLoaded .ready refMounted t) e = none) ∧
    (cameraSession modelLoaded .ready refMounted t).ui.finalResult = "" := by
  have hc : (cameraSession modelLoaded .ready refMounted t).ui.webcam
        = some { width := 300, height := 300, flip := true } ∧
      (cameraSession modelLoaded .ready refMounted t).ui.isAnalyzing = true ∧
      (cameraSession modelLoaded .ready refMounted t).intervalActive = false ∧
      (cameraSession modelLoaded .ready refMounted t).deadlineAt = none ∧
      (cameraSession modelLoaded .ready refMounted t).predictCalls = 0 ∧
      (cameraSession modelLoaded .ready refMounted t).ticksInFlight = 0 ∧
      (cameraSession modelLoaded .ready refMounted t).finalInFlight = false ∧
      (cameraSession modelLoaded .ready refMounted t).ui.finalResult = "" := by
    cases refMounted <;> exact ⟨rfl, rfl, rfl, rfl, rfl, rfl, rfl, rfl⟩
  exact ⟨rfl, hc.1, hc.2.1, hc.2.2.1, hc.2.2.2.1, hc.2.2.2.2.1,
    step_idle _ hc.2.2.1 hc.2.2.2.1 hc.2.2.2.2.2.1 hc.2.2.2.2.2.2.1, hc.2.2.2.2.2.2.2⟩

/-- C7, as stated, fails: started from the initial state with the model
loaded, either handler has set isAnalyzing to true, not to its initial value
false, when the first tick can fire (no predict call has been made yet). -/
theorem start_marks_analyzing :
    (play mounted [.modelLoads, .fileChange true true 0]).map
        (fun s => (s.ui.isAnalyzing, s.predictCalls, s.ticksInFlight)) = some (true, 0, 0) ∧
    (play mounted [.modelLoads, .useCamera .ready false 0]).map
        (fun s => (s.ui.isAnalyzing, s.predictCalls, s.ticksInFlight)) = some (true, 0, 0) ∧
    State.initial.isAnalyzing = false :=
  ⟨rfl, rfl, rfl⟩

/-- C7, amended: for every state the component reaches, a session started
through handleCameraStart or handleFileUpload has empty stored predictions
and an unset finalResult before any predict call of the new session is made,
and isAnalyzing is true there after handleCameraStart and after an upload
with a file and a stored model, false after an upload without. -/
theorem start_keeps_results_empty (history : List Action) (s₀ : Session)
    (h0 : play mounted history = some s₀) :
    (∀ acq refMounted t s₁, act s₀ (.useCamera acq refMounted t) = some s₁ →
      s₁.ui.predictions = [] ∧ s₁.ui.finalResult = "" ∧ s₁.ui.isAnalyzing = true ∧
        s₁.predictCalls = 0 ∧ s₁.ticksInFlight = 0) ∧
    (∀ file canvasMounted t s₁, act s₀ (.fileChange file canvasMounted t) = some s₁ →
      s₁.ui.predictions = [] ∧ s₁.ui.finalResult = "" ∧
        s₁.ui.isAnalyzing = (file && s₀.ui.model.isSome) ∧
        s₁.predictCalls = 0 ∧ s₁.ticksInFlight = 0) := by
  constructor
  · intro acq refMounted t s₁ h1
    by_cases hs : s₀.ui.mode = ""
    · obtain ⟨hw, hp, _, hf, _, _⟩ := mounted_fresh history s₀ h0 hs
      simp only [act] at h1
      rw [if_pos hs] at h1
      have h' := Option.some.inj h1
      subst h'
      obtain ⟨hq, _, hp', hf', hi', hc'⟩ :=
        cameraSession_of_no_webcam s₀.ui acq refMounted t hw
      exact ⟨hp'.trans hp, hf'.trans hf, hi', hc', hq.2.2.1⟩
    · simp only [act] at h1
      rw [if_neg hs] at h1
      cases h1
  · intro file canvasMounted t s₁ h1
    by_cases hs : s₀.ui.mode = ""
    · obtain ⟨_, hp, _, hf, hi, _⟩ := mounted_fresh history s₀ h0 hs
      simp only [act] at h1
      rw [if_pos hs] at h1
      have h' := Option.some.inj h1
      subst h'
      obtain ⟨_, hp', hf', hc', ht', hi', _⟩ :=
        uploadSession_shape s₀.ui file canvasMounted t
      refine ⟨hp'.trans hp, hf'.trans hf, ?_, hc', ht'⟩
      rw [hi', hi]
      cases file && s₀.ui.model.isSome <;> rfl
    · simp only [act] at h1
      rw [if_neg hs] at h1
      cases h1

/-- C7, amended, on the component whose model has just been loaded. -/
theorem start_keeps_results_empty_witness :
    play mounted [.modelLoads] = some { mounted with ui := modelLoaded } ∧
    (∀ acq refMounted t s₁,
      act { mounted with ui := modelLoaded } (.useCamera acq refMounted t) = some s₁ →
      s₁.ui.predictions = [] ∧ s₁.ui.finalResult = "" ∧ s₁.ui.isAnalyzing = true ∧
        s₁.predictCalls = 0 ∧ s₁.ticksInFlight = 0) ∧
    (∀ file canvasMounted t s₁,
      act { mounted with ui := modelLoaded } (.fileChange file canvasMounted t) = some s₁ →
      s₁.ui.predictions = [] ∧ s₁.ui.finalResult = "" ∧
        s₁.ui.isAnalyzing = (file && modelLoaded.model.isSome) ∧
        s₁.predictCalls = 0 ∧ s₁.ticksInFlight = 0) :=
  ⟨rfl, start_keeps_results_empty [.modelLoads] { mounted with ui := modelLoaded } rfl⟩

/-- C8, as stated, fails: in an upload session a tick fires at 2900 ms, the
deadline fires at 3000 ms and its final predict call returns at 3040 ms, which
stores the final predictions and sets isAnalyzing to false; the predict call
of the tick returns at 3100 ms and its callback overwrites the stored
predictions with jittered ones. -/
theorem late_tick_overwrites_final :
    ∃ done last,
      run (uploadSession modelLoaded true true 0)
        [.tick 2900, .deadline 3000, .finalReturns 3040 sample] = some done ∧
      done.ui.predictions = sample ∧ done.ui.isAnalyzing = false ∧
      done.intervalActive = false ∧
      step done (.tickReturns 3100 sample drawHalf) = some last ∧
      last.ui.predictions ≠ sample ∧ last.ui.isAnalyzing = false := by
  have h1 : (0 : ℚ) ≤ 2900 := by norm_num
  have h2 : ((0 : ℚ) + (3000 : ℕ)) ≤ 3000 := by norm_num
  have h3 : (2900 : ℚ) ≤ 3000 := by norm_num
  have h4 : (3000 : ℚ) ≤ 3040 := by norm_num
  have h5 : (3040 : ℚ) ≤ 3100 := by norm_num
  have hrun : run (uploadSession modelLoaded true true 0)
      [.tick 2900, .deadline 3000, .finalReturns 3040 (⟨"Healthy", 9 / 10⟩ :: [⟨"At risk", 1 / 10⟩])]
      = some _ :=
    run_step _ _ _ _ _ (step_tick _ 2900 rfl h1)
      (run_step _ _ _ _ _ (step_deadline _ _ 3000 rfl h2 h3)
        (run_step _ _ _ _ _ (step_finalReturns_cons _ 0 3040 _ _ rfl rfl h4) rfl))
  refine ⟨_, _, hrun, rfl, rfl, rfl,
    step_tickReturns _ 3100 sample drawHalf Nat.zero_lt_one h5, ?_, rfl⟩
  intro h
  have hp : (min ((9 : ℚ) / 10 + 1 / 2 * (2 / 10)) 1) = 9 / 10 := by
    have := congrArg (fun l => (l.head?).map Prediction.probability) h
    simpa [perturbFrom, sample, uploadJitter, drawHalf] using this
  norm_num at hp

/-- C8, amended: in both modes, once the deadline callback has fired the
interval is cleared, so in every continuation no tick fires and no further
predict call is issued, and the number of tick callbacks still waiting for
their predict call never grows; each of those still writes its jittered
predictions when its call returns, so the final predictions are the stored
ones for good only when no tick call was waiting at the deadline. -/
theorem no_tick_fires_after_deadline (s s₁ s₂ : Session) (t : ℚ) (es : List Event)
    (hd : step s (.deadline t) = some s₁) (hr : run s₁ es = some s₂) :
    s₁.intervalActive = false ∧ s₂.intervalActive = false ∧
    (∀ u, Event.tick u ∉ es) ∧
    s₂.predictCalls = s₁.predictCalls ∧
    s₂.ticksInFlight ≤ s.ticksInFlight ∧
    (s.ticksInFlight = 0 → ∀ u final, Event.finalReturns u final ∈ es →
      s₂.ui.predictions = final) := by
  cases hdue : s.deadlineAt with
  | none => simp [step, hdue] at hd
  | some due =>
    by_cases hen : due ≤ t ∧ s.clock ≤ t
    · rw [step_deadline s due t hdue hen.1 hen.2] at hd
      have h' := Option.some.inj hd
      subst h'
      obtain ⟨hno, hi, hc, ht, hzero⟩ := run_after_deadline es _ s₂ rfl rfl hr
      exact ⟨rfl, hi, hno, hc, ht, hzero⟩
    · simp only [step, hdue] at hd
      rw [if_neg hen] at hd
      cases hd

/-- C8, amended, on an upload session with one tick call waiting at the
deadline. -/
theorem no_tick_fires_after_deadline_witness :
    ∃ s₁ s₂,
      step tickWaiting (.deadline 3000) = some s₁ ∧
      run s₁ [.finalReturns 3040 sample, .tickReturns 3100 sample drawHalf] = some s₂ ∧
      s₁.intervalActive = false ∧ s₂.intervalActive = false ∧
      (∀ u, Event.tick u ∉
        [Event.finalReturns 3040 sample, Event.tickReturns 3100 sample drawHalf]) ∧
      s₂.predictCalls = s₁.predictCalls ∧
      s₂.ticksInFlight ≤ tickWaiting.ticksInFlight ∧
      (tickWaiting.ticksInFlight = 0 → ∀ u final,
        Event.finalReturns u final ∈
          [Event.finalReturns 3040 sample, Event.tickReturns 3100 sample drawHalf] →
        s₂.ui.predictions = final) := by
  have h2 : ((0 : ℚ) + (3000 : ℕ)) ≤ 3000 := by norm_num
  have h3 : (2900 : ℚ) ≤ 3000 := by norm_num
  obtain ⟨s₁, hd, hc₁, hs₁, hf₁, ht₁⟩ :
      ∃ s₁, step tickWaiting (.deadline 3000) = some s₁ ∧ s₁.clock = 3000 ∧
        s₁.startTime = some 0 ∧ s₁.finalInFlight = true ∧ s₁.ticksInFlight = 1 :=
    ⟨_, step_deadline tickWaiting _ 3000 rfl h2 h3, rfl, rfl, rfl, rfl⟩
  obtain ⟨s₂, hfin, hc₂, ht₂⟩ :
      ∃ s₂, step s₁ (.finalReturns 3040 sample) = some s₂ ∧ s₂.clock = 3040 ∧
        s₂.ticksInFlight = 1 :=
    ⟨_, step_finalReturns_cons s₁ 0 3040 _ _ hs₁ hf₁ (by rw [hc₁]; norm_num), rfl, ht₁⟩
  obtain ⟨s₃, htr⟩ : ∃ s₃, step s₂ (.tickReturns 3100 sample drawHalf) = some s₃ :=
    ⟨_, step_tickReturns s₂ 3100 sample drawHalf (by rw [ht₂]; exact Nat.zero_lt_one)
      (by rw [hc₂]; norm_num)⟩
  have hr : run s₁ [.finalReturns 3040 sample, .tickReturns 3100 sample drawHalf] = some s₃ :=
    run_step _ _ _ _ _ hfin (run_step _ _ _ _ _ htr rfl)
  exact ⟨s₁, s₃, hd, hr, no_tick_fires_after_deadline tickWaiting s₁ s₃ 3000 _ hd hr⟩

end WebcamModel
